import Mathlib

/-!
Shallow embedding of `src/extension.ts` of the Code Session Tracker
VS Code extension, together with proofs checking the natural-language
specification against it.

Modelling conventions:
* `Date.now()` instants and all accumulated durations are `Int`
  (milliseconds); each handler receives the current instant `now`
  explicitly instead of reading a clock.
* The module-level mutable variables of `extension.ts` form one record
  `TrackerState`; every handler is a pure function `TrackerState → ... →
  TrackerState` obtained by direct transcription of the corresponding
  TypeScript function.
* JavaScript objects used as string-keyed maps (`fileStats`,
  `folderStats`, `languageUsage`) are association lists in insertion
  order; `obj[k] = v` updates in place when the key exists and appends
  otherwise, exactly as JS property assignment behaves for string keys.
* The durable JSON file at `logPath` is the `storage` field
  (`Option SessionData`, `none` = file absent); `fs` reads and writes
  become reads and writes of that field.
* `path.extname`/`path.dirname` are modelled for POSIX paths
  (`splitOnChar`-based, structural recursion so the kernel can evaluate
  them), matching Node's behaviour on the separator-normalised,
  non-trailing-slash paths the claims use.
* JS truthiness is transcribed where the source relies on it: the guard
  `if (currentFocusedFile && focusStartTime)` is false for the empty
  string and for the instant `0`, and `x || 0` becomes `Option.getD 0`.
* Webview broadcasting (`broadcastToDashboards`, panels) is stateless
  with respect to the tracked data and is omitted; the timer callbacks
  (`startActivityChecking`'s tick) are explicit functions applied at
  chosen instants.
-/

namespace SessionTracker

/-- `idleTimeout = 3 * 60 * 1000` from `extension.ts`. -/
def IDLE_TIMEOUT : Int := 3 * 60 * 1000

/-- The `setInterval(..., 60000)` cadence of `startActivityChecking`,
which is also the amount added per tick while idle. -/
def TICK_INTERVAL : Int := 60000

/-- The 30 s cap on inter-edit gaps in the `onDidChangeTextDocument`
handler. -/
def EDIT_GAP_CAP : Int := 30000

/-- The 5-minute staleness ceiling in `updateFileTimeSpent`. -/
def STALE_CEILING : Int := 5 * 60 * 1000

/-- Split a character list at every occurrence of `c` (used to model
Node's path handling; structural recursion so `decide` can evaluate). -/
def splitOnChar (c : Char) : List Char → List (List Char)
  | [] => [[]]
  | a :: rest =>
    match splitOnChar c rest with
    | [] => [[a]]
    | h :: t => if a = c then [] :: h :: t else (a :: h) :: t

/-- Join character lists with separator `c` (inverse of `splitOnChar`). -/
def joinSep (c : Char) : List (List Char) → List Char
  | [] => []
  | [x] => x
  | x :: y :: t => x ++ c :: joinSep c (y :: t)

/-- Model of Node `path.extname` on the characters of a POSIX path: the
suffix of the basename from its last dot, empty when the basename has no
dot or only a leading dot. -/
def extnameL (p : List Char) : List Char :=
  let b := (splitOnChar '/' p).getLastD []
  let parts := splitOnChar '.' b
  if parts.length ≤ 1 then []
  else if parts.length = 2 ∧ parts.headD [] = [] then []
  else '.' :: parts.getLastD []

/-- `path.extname(file).slice(1)` — the language tag the extension
derives from a file name. -/
def langOf (p : String) : String :=
  String.mk ((extnameL p.data).drop 1)

/-- Model of Node `path.dirname` on the characters of a POSIX path. -/
def dirnameL (p : List Char) : List Char :=
  let parts := splitOnChar '/' p
  if parts.length ≤ 1 then ['.']
  else
    let front := parts.dropLast
    if front.all (· = []) then ['/'] else joinSep '/' front

/-- `path.dirname` on strings. -/
def dirname (p : String) : String :=
  String.mk (dirnameL p.data)

/-- The `FileStats` interface of `extension.ts`. -/
structure FileStats where
  language : String
  timeSpent : Int
  edits : Nat
  folderPath : String
  notes : List String
deriving DecidableEq

/-- The `FolderStats` interface of `extension.ts`. -/
structure FolderStats where
  timeSpent : Int
  files : Nat
deriving DecidableEq

/-- The `SessionData` interface of `extension.ts`; ISO-8601 strings are
modelled by the underlying instants. -/
structure SessionData where
  sessionStart : Int
  sessionEnd : Option Int
  totalSessionTime : Option Int
  activeCodingTime : Int
  debuggingTime : Int
  idleTime : Int
  fileActivity : List (String × FileStats)
  folderActivity : List (String × FolderStats)
  languageUsage : List (String × Int)
  customNotes : List String
deriving DecidableEq

/-- Lookup in a JS-object-as-map modelled as an association list. -/
def getKey : List (String × α) → String → Option α
  | [], _ => none
  | p :: t, k => if p.1 = k then some p.2 else getKey t k

/-- Rewrite the value at key `k` in place (JS `obj[k].field = ...`). -/
def mapVal (m : List (String × α)) (k : String) (f : α → α) :
    List (String × α) :=
  m.map fun p => if p.1 = k then (p.1, f p.2) else p

/-- JS `if (!obj[k]) obj[k] = d`: append the default when absent. -/
def ensureKey (m : List (String × α)) (k : String) (d : α) :
    List (String × α) :=
  if (getKey m k).isSome then m else m ++ [(k, d)]

/-- JS `obj[k] = v`: replace in place when present, append otherwise. -/
def setKey (m : List (String × α)) (k : String) (v : α) :
    List (String × α) :=
  if (getKey m k).isSome then mapVal m k (fun _ => v) else m ++ [(k, v)]

/-- All module-level mutable variables of `extension.ts`, plus the
durable JSON file (`storage`, `none` when the file does not exist). -/
structure TrackerState where
  sessionStart : Int
  lastActivityTime : Int
  lastEditTime : Int
  debugStartTime : Option Int
  activeCodingTime : Int
  debuggingTime : Int
  idleTime : Int
  isIdle : Bool
  fileStats : List (String × FileStats)
  folderStats : List (String × FolderStats)
  languageUsage : List (String × Int)
  currentFocusedFile : Option String
  focusStartTime : Option Int
  storage : Option SessionData
deriving DecidableEq

/-- The state right after the module loads at instant `t0`
(`sessionStart = lastActivityTime = Date.now()`, `lastEditTime = 0`,
all accumulators zero, all maps empty). -/
def initState (t0 : Int) : TrackerState :=
  { sessionStart := t0
    lastActivityTime := t0
    lastEditTime := 0
    debugStartTime := none
    activeCodingTime := 0
    debuggingTime := 0
    idleTime := 0
    isIdle := false
    fileStats := []
    folderStats := []
    languageUsage := []
    currentFocusedFile := none
    focusStartTime := none
    storage := none }

/-- The record literal created inside `updateFileStats` for a new file. -/
def FileStats.fresh (language folderPath : String) : FileStats :=
  { language := language
    timeSpent := 0
    edits := 0
    folderPath := folderPath
    notes := [] }

/-- `updateFileStats(filePath, language, folderPath)`: create the record
if absent, then `fileStats[filePath].edits++` unconditionally. -/
def updateFileStats (s : TrackerState)
    (filePath language folderPath : String) : TrackerState :=
  let fs := ensureKey s.fileStats filePath (FileStats.fresh language folderPath)
  { s with fileStats := mapVal fs filePath fun st => { st with edits := st.edits + 1 } }

/-- `Object.values(fileStats).filter(stat => stat.folderPath === folderPath).length`. -/
def folderFileCount (m : List (String × FileStats)) (folderPath : String) : Nat :=
  (m.filter fun p => p.2.folderPath == folderPath).length

/-- `updateFolderStats(folderPath)`: create the folder record if absent,
then recompute its `files` count from the current `fileStats`. -/
def updateFolderStats (s : TrackerState) (folderPath : String) : TrackerState :=
  let fo := ensureKey s.folderStats folderPath { timeSpent := 0, files := 0 }
  let cnt := folderFileCount s.fileStats folderPath
  { s with folderStats := mapVal fo folderPath fun st => { st with files := cnt } }

/-- `updateFolderTimeSpent(folderPath, timeSpent)`. -/
def updateFolderTimeSpent (s : TrackerState) (folderPath : String)
    (t : Int) : TrackerState :=
  let s := if (getKey s.folderStats folderPath).isSome then s
           else updateFolderStats s folderPath
  { s with folderStats := mapVal s.folderStats folderPath fun st =>
      { st with timeSpent := st.timeSpent + t } }

/-- The crediting block of `updateFileTimeSpent`: guarded by the file
record existing, add `elapsed` to the file's `timeSpent`, the folder's
`timeSpent` and (for a non-empty language tag) the language usage. -/
def flushCredit (s : TrackerState) (file : String) (elapsed : Int) :
    TrackerState :=
  match getKey s.fileStats file with
  | some _ =>
    let s := { s with fileStats := mapVal s.fileStats file fun st =>
        { st with timeSpent := st.timeSpent + elapsed } }
    let s := updateFolderTimeSpent s (dirname file) elapsed
    let lang := langOf file
    let credited := (getKey s.languageUsage lang).getD 0 + elapsed
    if lang = "" then s
    else { s with languageUsage := setKey s.languageUsage lang credited }
  | none => s

/-- `updateFileTimeSpent()` at instant `now`: flush the focus cursor
(crediting only when the elapsed span is under `STALE_CEILING`), then
reset `focusStartTime` to `now`.  The outer JS guard
`if (currentFocusedFile && focusStartTime)` is transcribed with JS
truthiness (empty string and instant `0` are falsy). -/
def updateFileTimeSpent (s : TrackerState) (now : Int) : TrackerState :=
  match s.currentFocusedFile, s.focusStartTime with
  | some file, some start =>
    if file = "" ∨ start = 0 then s
    else
      let elapsed := now - start
      let s1 := if elapsed < STALE_CEILING then flushCredit s file elapsed else s
      { s1 with focusStartTime := some now }
  | _, _ => s

/-- Default `SessionData` returned by `loadSessionData` when the file is
absent (also the literal written by `initializeSessionFile`). -/
def defaultSessionData (sessionStart : Int) : SessionData :=
  { sessionStart := sessionStart
    sessionEnd := none
    totalSessionTime := none
    activeCodingTime := 0
    debuggingTime := 0
    idleTime := 0
    fileActivity := []
    folderActivity := []
    languageUsage := []
    customNotes := [] }

/-- `loadSessionData()`: parse the durable file, or the empty default
when absent.  (The notes-migration loop is a no-op in the model because
`notes` is always present.) -/
def loadSessionData (s : TrackerState) : SessionData :=
  match s.storage with
  | some d => d
  | none => defaultSessionData s.sessionStart

/-- `saveSessionData(data)`: overwrite the durable file. -/
def saveSessionData (s : TrackerState) (d : SessionData) : TrackerState :=
  { s with storage := some d }

/-- `getCurrentSessionData()` at instant `now`: flush the focus cursor,
then assemble the snapshot, taking `customNotes` from the durable file
(`existingData.customNotes || []`; a JS array is always truthy, so this
is exactly the stored list). -/
def getCurrentSessionData (s : TrackerState) (now : Int) :
    TrackerState × SessionData :=
  let s := updateFileTimeSpent s now
  let existing := loadSessionData s
  (s,
    { sessionStart := s.sessionStart
      sessionEnd := some now
      totalSessionTime := some (now - s.sessionStart)
      activeCodingTime := s.activeCodingTime
      debuggingTime := s.debuggingTime
      idleTime := s.idleTime
      fileActivity := s.fileStats
      folderActivity := s.folderStats
      languageUsage := s.languageUsage
      customNotes := existing.customNotes })

/-- `saveSessionFile()` at instant `now`. -/
def saveSessionFile (s : TrackerState) (now : Int) : TrackerState :=
  let p := getCurrentSessionData s now
  saveSessionData p.1 p.2

/-- `initializeSessionFile()`: overwrite the durable file with a fresh
empty snapshot for this process's `sessionStart`. -/
def initSessionFile (s : TrackerState) : TrackerState :=
  saveSessionData s (defaultSessionData s.sessionStart)

/-- The storage-relevant action of `activate`: its first statement is
`initializeSessionFile()`; the timers it starts are modelled as the
explicit tick functions below. -/
def activate (s : TrackerState) : TrackerState :=
  initSessionFile s

/-- The `onDidChangeTextDocument` handler at instant `now` for an edit
in `file`: reset the idle flag, update `lastActivityTime`, credit the
inter-edit gap when a previous edit exists and the gap is under the cap,
update `lastEditTime` unconditionally, then bump file and folder stats. -/
def handleEdit (s : TrackerState) (now : Int) (file : String) : TrackerState :=
  let s := { s with isIdle := false, lastActivityTime := now }
  let s := if s.lastEditTime > 0 ∧ now - s.lastEditTime < EDIT_GAP_CAP
           then { s with activeCodingTime := s.activeCodingTime + (now - s.lastEditTime) }
           else s
  let s := { s with lastEditTime := now }
  let lang := langOf file
  let folderPath := dirname file
  let s := updateFileStats s file lang folderPath
  updateFolderStats s folderPath

/-- The `onDidChangeActiveTextEditor` handler at instant `now`
(`editor = some file` when an editor gains focus, `none` when all
editors close): update `lastActivityTime`, flush the previous focus
cursor, then install the new cursor, seed the language-usage entry
(`languageUsage[lang] = languageUsage[lang] || 0`) for a non-empty
language, and bump file and folder stats.  Note the source never resets
`isIdle` here. -/
def handleFocusChange (s : TrackerState) (now : Int) (editor : Option String) :
    TrackerState :=
  let s := { s with lastActivityTime := now }
  let s := updateFileTimeSpent s now
  match editor with
  | some file =>
    let s := { s with currentFocusedFile := some file, focusStartTime := some now }
    let lang := langOf file
    let seeded := (getKey s.languageUsage lang).getD 0
    let s := if lang = "" then s
             else { s with languageUsage := setKey s.languageUsage lang seeded }
    let folderPath := dirname file
    let s := updateFileStats s file lang folderPath
    updateFolderStats s folderPath
  | none => { s with currentFocusedFile := none, focusStartTime := none }

/-- The `onDidStartDebugSession` handler at instant `now`. -/
def handleDebugStart (s : TrackerState) (now : Int) : TrackerState :=
  { s with debugStartTime := some now, lastActivityTime := now, isIdle := false }

/-- The `onDidTerminateDebugSession` handler at instant `now`: whole
body guarded by `debugStartTime !== null`, so an orphan end changes
nothing at all. -/
def handleDebugEnd (s : TrackerState) (now : Int) : TrackerState :=
  match s.debugStartTime with
  | some start =>
    { s with debuggingTime := s.debuggingTime + (now - start)
             lastActivityTime := now
             debugStartTime := none }
  | none => s

/-- The accepted branch of the `codeSessionTracker.addNote` command with
a non-empty trimmed note: load, append the stamped note, save. -/
def addNote (s : TrackerState) (timestamp text : String) : TrackerState :=
  let d := loadSessionData s
  saveSessionData s
    { d with customNotes := d.customNotes ++ [timestamp ++ ": " ++ text] }

/-- The accepted branch of the `codeSessionTracker.addFileNote` command
with a non-empty trimmed note at instant `now`: create the file record
if absent (via `updateFileStats`), append the stamped note to the file's
note list, then `saveSessionFile()`. -/
def addFileNote (s : TrackerState) (now : Int)
    (filePath timestamp text : String) : TrackerState :=
  let s := if (getKey s.fileStats filePath).isSome then s
           else updateFileStats s filePath (langOf filePath) (dirname filePath)
  let stamped := timestamp ++ ": " ++ text
  let s := { s with fileStats := mapVal s.fileStats filePath fun st =>
      { st with notes := st.notes ++ [stamped] } }
  saveSessionFile s now

/-- One `startActivityChecking` interval callback at instant `now`:
idle detection and accrual, focus-cursor flush, periodic save. -/
def activityCheckTick (s : TrackerState) (now : Int) : TrackerState :=
  let s :=
    if s.isIdle = false ∧ now - s.lastActivityTime > IDLE_TIMEOUT then
      let additional := now - s.lastActivityTime - IDLE_TIMEOUT
      let s := { s with isIdle := true }
      if additional > 0 then { s with idleTime := s.idleTime + additional } else s
    else if s.isIdle = true then { s with idleTime := s.idleTime + TICK_INTERVAL }
    else s
  let s := updateFileTimeSpent s now
  saveSessionFile s now

/-- Fold a sequence of idle-check tick instants through the state. -/
def runTicks (s : TrackerState) (ts : List Int) : TrackerState :=
  ts.foldl activityCheckTick s

/-- Fold a sequence of edit-event instants (all on `file`) through the
state. -/
def runEdits (s : TrackerState) (file : String) (ts : List Int) : TrackerState :=
  ts.foldl (fun s t => handleEdit s t file) s

/-- The gap credit the edit handler accumulates, starting from a given
previous-edit timestamp (`0` = no previous edit): the direct transcript
of the accumulation in `onDidChangeTextDocument`. -/
def codeGapSum : Int → List Int → Int
  | _, [] => 0
  | prev, t :: rest =>
    (if prev > 0 ∧ t - prev < EDIT_GAP_CAP then t - prev else 0) + codeGapSum t rest

/-- Modelled from the spec: the sum of those inter-edit gaps of an event
sequence that are strictly below the 30 s cap (gaps at or above the cap
contribute 0). -/
def specGapSum : List Int → Int
  | t1 :: t2 :: rest =>
    (if t2 - t1 < EDIT_GAP_CAP then t2 - t1 else 0) + specGapSum (t2 :: rest)
  | _ => 0

/-- The session-level note list currently in durable storage (empty when
the file is absent). -/
def storageNotes (s : TrackerState) : List String :=
  match s.storage with
  | some d => d.customNotes
  | none => []

/-- Durable storage as left behind by a predecessor process: it contains
one session-level note. -/
def demoStoredData : SessionData :=
  { defaultSessionData 0 with customNotes := ["09:00: old note"] }

/-- A freshly loaded process whose durable storage still holds the
predecessor's note. -/
def demoRestartState : TrackerState :=
  { initState 0 with storage := some demoStoredData }

/-! ## Association-list lemmas -/

theorem getKey_mapVal_self (m : List (String × α)) (k : String) (f : α → α) :
    getKey (mapVal m k f) k = (getKey m k).map f := by
  induction m with
  | nil => rfl
  | cons p t ih =>
    by_cases h : p.1 = k
    · simp [mapVal, getKey, h]
    · simp [mapVal, getKey, h]
      simpa [mapVal] using ih

theorem getKey_append_single_none (m : List (String × α)) (k : String) (v : α)
    (h : getKey m k = none) : getKey (m ++ [(k, v)]) k = some v := by
  induction m with
  | nil => simp [getKey]
  | cons p t ih =>
    by_cases hp : p.1 = k
    · simp [getKey, hp] at h
    · simp [getKey, hp] at h ⊢
      exact ih h

theorem getKey_ensureKey_self (m : List (String × α)) (k : String) (d : α) :
    getKey (ensureKey m k d) k = some ((getKey m k).getD d) := by
  unfold ensureKey
  cases h : getKey m k with
  | none => simp [h, getKey_append_single_none m k d h]
  | some v => simp [h]

theorem getKey_setKey_self (m : List (String × α)) (k : String) (v : α) :
    getKey (setKey m k v) k = some v := by
  unfold setKey
  cases h : getKey m k with
  | none => simp [h, getKey_append_single_none m k v h]
  | some w => simp [h, getKey_mapVal_self]

/-! ## Field-preservation lemmas

The flush and persistence paths never touch the idle machine, the edit
accumulator or (except for `saveSessionData`) durable storage. -/

theorem updateFolderTimeSpent_misc (s : TrackerState) (f : String) (t : Int) :
    (updateFolderTimeSpent s f t).idleTime = s.idleTime
  ∧ (updateFolderTimeSpent s f t).isIdle = s.isIdle
  ∧ (updateFolderTimeSpent s f t).storage = s.storage
  ∧ (updateFolderTimeSpent s f t).lastActivityTime = s.lastActivityTime := by
  unfold updateFolderTimeSpent
  split <;> exact ⟨rfl, rfl, rfl, rfl⟩

theorem flushCredit_misc (s : TrackerState) (f : String) (e : Int) :
    (flushCredit s f e).idleTime = s.idleTime
  ∧ (flushCredit s f e).isIdle = s.isIdle
  ∧ (flushCredit s f e).storage = s.storage
  ∧ (flushCredit s f e).lastActivityTime = s.lastActivityTime := by
  unfold flushCredit
  split
  · have h := updateFolderTimeSpent_misc
      { s with fileStats := mapVal s.fileStats f fun st =>
          { st with timeSpent := st.timeSpent + e } } (dirname f) e
    dsimp only
    split
    · exact h
    · exact h
  · exact ⟨rfl, rfl, rfl, rfl⟩

theorem updateFileTimeSpent_misc (s : TrackerState) (now : Int) :
    (updateFileTimeSpent s now).idleTime = s.idleTime
  ∧ (updateFileTimeSpent s now).isIdle = s.isIdle
  ∧ (updateFileTimeSpent s now).storage = s.storage
  ∧ (updateFileTimeSpent s now).lastActivityTime = s.lastActivityTime := by
  unfold updateFileTimeSpent
  split
  · split
    · exact ⟨rfl, rfl, rfl, rfl⟩
    · dsimp only
      split
      · exact flushCredit_misc s _ _
      · exact ⟨rfl, rfl, rfl, rfl⟩
  · exact ⟨rfl, rfl, rfl, rfl⟩

theorem saveSessionFile_misc (s : TrackerState) (now : Int) :
    (saveSessionFile s now).idleTime = s.idleTime
  ∧ (saveSessionFile s now).isIdle = s.isIdle
  ∧ (saveSessionFile s now).lastActivityTime = s.lastActivityTime := by
  have h := updateFileTimeSpent_misc s now
  exact ⟨h.1, h.2.1, h.2.2.2⟩

/-! ## Claim C1 — note survival across restarts -/

/-- C1 counterexample: durable storage holds a session-level note at
load time, yet after the new process activates
(`initializeSessionFile`) and performs its first save, the note list in
durable storage is empty — the note did not survive the restart. -/
theorem restart_then_save_drops_stored_notes :
    storageNotes demoRestartState = ["09:00: old note"]
  ∧ storageNotes (saveSessionFile (activate demoRestartState) 5) = [] := by
  exact ⟨rfl, by decide⟩

/-- C1 (amended): `saveSessionFile` itself never clobbers the stored
note list — every save writes back exactly the `customNotes` found in
durable storage at save time — but `initializeSessionFile`, the first
action of `activate`, overwrites durable storage with an empty snapshot,
so notes present at load time are lost across a process restart. -/
theorem save_merges_storage_notes_activate_clears (s : TrackerState)
    (now : Int) (d : SessionData) (h : s.storage = some d) :
    storageNotes (saveSessionFile s now) = d.customNotes
  ∧ storageNotes (initSessionFile s) = [] := by
  constructor
  · have hst : (updateFileTimeSpent s now).storage = some d :=
      ((updateFileTimeSpent_misc s now).2.2.1).trans h
    simp [saveSessionFile, getCurrentSessionData, saveSessionData,
      storageNotes, loadSessionData, hst]
  · rfl

/-- C1 witness: the amended statement instantiated at a concrete
restarted state. -/
theorem save_merges_storage_notes_activate_clears_witness :
    demoRestartState.storage = some demoStoredData
  ∧ storageNotes (saveSessionFile demoRestartState 5) = demoStoredData.customNotes
  ∧ storageNotes (initSessionFile demoRestartState) = [] := by
  refine ⟨rfl, ?_, ?_⟩
  · exact (save_merges_storage_notes_activate_clears demoRestartState 5
      demoStoredData rfl).1
  · exact (save_merges_storage_notes_activate_clears demoRestartState 5
      demoStoredData rfl).2

/-! ## Claim C2 — editCount incremented only by edit events -/

/-- C2 (code bug witness): a single focus-change event — no edit event
at all — creates the file record and leaves its `edits` counter at 1,
because `updateFileStats` runs `edits++` unconditionally and the
`onDidChangeActiveTextEditor` handler calls it under the comment
"Initialize file and folder stats if needed". -/
theorem focus_change_increments_edit_count :
    (getKey (handleFocusChange (initState 0) 1000 (some "/d/a.py")).fileStats
      "/d/a.py").map (fun st => st.edits) = some 1 := by decide

/-! ## Claim C3 — file note on a fresh path -/

/-- C3 (code bug witness): adding a file note for a path with no
existing record creates a record whose note list is exactly the one
stamped entry and whose `timeSpent` is 0, as claimed — but its `edits`
counter is 1, not 0, because the "Initialize file stats if they don't
exist" call goes through `updateFileStats`, which also runs `edits++`. -/
theorem file_note_on_fresh_path_sets_edit_count_one :
    getKey (addFileNote (initState 0) 1000 "/d/a.py" "10:00" "fixed bug").fileStats
      "/d/a.py"
      = some { language := "py", timeSpent := 0, edits := 1, folderPath := "/d",
               notes := ["10:00: fixed bug"] } := by decide

/-! ## Claim C4 — Idle to Active transition -/

/-- C4 (code bug witness): with the machine in state Idle (one tick at
t = 240000 credited 60000 ms of idle time), a focus-change event at
t = 240500 leaves `isIdle` still true — the handler never resets it —
so the following idle-check tick at t = 300000 credits another full
tick interval, bringing `idleTime` to 120000 instead of staying at
60000. -/
theorem focus_change_while_idle_still_accrues_idle_time :
    (handleFocusChange (activityCheckTick (initState 0) 240000) 240500
      (some "/d/a.py")).isIdle = true
  ∧ (activityCheckTick (handleFocusChange (activityCheckTick (initState 0) 240000)
      240500 (some "/d/a.py")) 300000).idleTime = 120000 := by
  exact ⟨by decide, by decide⟩

/-! ## Claim C5 — folder fileCount consistency -/

/-- C5 counterexample: after an edit creates `/d/a.py` (folder `/d` has
`files = 1`), a file-note request creates a record for `/d/b.py`; the
folder map still says `files = 1` while two distinct records now have
folder `/d` — the command never calls `updateFolderStats`. -/
theorem file_note_creation_leaves_folder_count_stale :
    (getKey (addFileNote (handleEdit (initState 0) 1000 "/d/a.py") 2000
      "/d/b.py" "10:01" "note").folderStats "/d").map (fun st => st.files) = some 1
  ∧ folderFileCount (addFileNote (handleEdit (initState 0) 1000 "/d/a.py") 2000
      "/d/b.py" "10:01" "note").fileStats "/d" = 2 := by
  exact ⟨by decide, by decide⟩

/-! ## Claim C9 — debugging time accrual -/

/-- C9: a `DebugEnd` with a matching open `DebugStart` adds exactly the
elapsed duration between them to `debuggingTime` and clears the open
start; a `DebugEnd` with no open start is a no-op leaving the whole
state unchanged; a duplicate `DebugStart` while one is open overwrites
the recorded start instant. -/
theorem debug_time_matching_orphan_duplicate (s : TrackerState) (t0 t1 t2 : Int) :
    (handleDebugEnd (handleDebugStart s t0) t1).debuggingTime
      = s.debuggingTime + (t1 - t0)
  ∧ (handleDebugEnd (handleDebugStart s t0) t1).debugStartTime = none
  ∧ handleDebugEnd (handleDebugEnd (handleDebugStart s t0) t1) t2
      = handleDebugEnd (handleDebugStart s t0) t1
  ∧ (handleDebugStart (handleDebugStart s t0) t1).debugStartTime = some t1 :=
  ⟨rfl, rfl, rfl, rfl⟩

theorem updateFolderStats_count (s : TrackerState) (f : String) :
    (getKey (updateFolderStats s f).folderStats f).map (fun st => st.files)
      = some (folderFileCount s.fileStats f)
  ∧ (updateFolderStats s f).fileStats = s.fileStats := by
  constructor
  · simp [updateFolderStats, getKey_mapVal_self, getKey_ensureKey_self]
  · rfl

theorem updateFolderStats_reestablishes (s : TrackerState) (f : String) :
    (getKey (updateFolderStats s f).folderStats f).map (fun st => st.files)
      = some (folderFileCount (updateFolderStats s f).fileStats f) := by
  have h := updateFolderStats_count s f
  rw [h.2]
  exact h.1

/-- C5 (amended): the folder map's `files` count is re-established for
the touched folder by every edit event and by every focus-change event
that names a file — after such an event the folder entry for the file's
directory exists and its `files` equals the number of records whose
`folderPath` is that directory.  A record created by a file-note request
does not update any folder entry (see the counterexample). -/
theorem edit_and_focus_reestablish_folder_count (s : TrackerState) (now : Int)
    (file : String) :
    (getKey (handleEdit s now file).folderStats (dirname file)).map
        (fun st => st.files)
      = some (folderFileCount (handleEdit s now file).fileStats (dirname file))
  ∧ (getKey (handleFocusChange s now (some file)).folderStats (dirname file)).map
        (fun st => st.files)
      = some (folderFileCount (handleFocusChange s now (some file)).fileStats
          (dirname file)) := by
  constructor
  · exact updateFolderStats_reestablishes _ (dirname file)
  · exact updateFolderStats_reestablishes _ (dirname file)

/-! ## Claim C6 — idle accrual formula -/

theorem tick_first_idle (s : TrackerState) (t : Int) (h : s.isIdle = false)
    (hgap : t - s.lastActivityTime > IDLE_TIMEOUT) :
    (activityCheckTick s t).idleTime
      = s.idleTime + (t - s.lastActivityTime - IDLE_TIMEOUT)
  ∧ (activityCheckTick s t).isIdle = true := by
  have hpos : t - s.lastActivityTime - IDLE_TIMEOUT > 0 := by
    have : (0 : Int) < t - s.lastActivityTime - IDLE_TIMEOUT := by
      exact Int.sub_pos.mpr hgap
    exact this
  unfold activityCheckTick
  dsimp only
  rw [if_pos ⟨h, hgap⟩, if_pos hpos]
  constructor
  · rw [(saveSessionFile_misc _ _).1, (updateFileTimeSpent_misc _ _).1]
  · rw [(saveSessionFile_misc _ _).2.1, (updateFileTimeSpent_misc _ _).2.1]

theorem tick_idle_step (s : TrackerState) (t : Int) (h : s.isIdle = true) :
    (activityCheckTick s t).idleTime = s.idleTime + TICK_INTERVAL
  ∧ (activityCheckTick s t).isIdle = true := by
  unfold activityCheckTick
  dsimp only
  rw [if_neg (by simp [h]), if_pos h]
  constructor
  · rw [(saveSessionFile_misc _ _).1, (updateFileTimeSpent_misc _ _).1]
  · rw [(saveSessionFile_misc _ _).2.1, (updateFileTimeSpent_misc _ _).2.1]
    exact h

theorem runTicks_idle (ts : List Int) : ∀ s : TrackerState, s.isIdle = true →
    (runTicks s ts).idleTime = s.idleTime + (ts.length : Int) * TICK_INTERVAL
  ∧ (runTicks s ts).isIdle = true := by
  induction ts with
  | nil =>
    intro s h
    constructor
    · simp [runTicks]
    · simpa [runTicks] using h
  | cons t rest ih =>
    intro s h
    have hs := tick_idle_step s t h
    have hr := ih (activityCheckTick s t) hs.2
    have hstep : runTicks s (t :: rest) = runTicks (activityCheckTick s t) rest := rfl
    constructor
    · rw [hstep, hr.1, hs.1]
      simp only [List.length_cons]
      push_cast
      ring
    · rw [hstep]
      exact hr.2

/-- C6: starting from the Active state with `lastActivityTime = T0` and
no further activity, the first idle-check tick whose gap exceeds the
threshold credits exactly the excess beyond the threshold, and each of
the `k` subsequent ticks credits exactly one tick interval, so
`idleTime` grows by `firstExcess + k * tickInterval`. -/
theorem idle_time_accrual_formula (s : TrackerState) (t1 : Int) (ts : List Int)
    (h : s.isIdle = false) (hgap : t1 - s.lastActivityTime > IDLE_TIMEOUT) :
    (runTicks (activityCheckTick s t1) ts).idleTime
      = s.idleTime + (t1 - s.lastActivityTime - IDLE_TIMEOUT)
        + (ts.length : Int) * TICK_INTERVAL := by
  have h1 := tick_first_idle s t1 h hgap
  have h2 := runTicks_idle ts (activityCheckTick s t1) h1.2
  rw [h2.1, h1.1]

/-- C6 witness: Active since t = 0, detected idle at the tick at
t = 240000 (excess 60000 ms) followed by k = 2 further ticks:
`idleTime = 60000 + 2 * 60000 = 180000`. -/
theorem idle_time_accrual_formula_witness :
    (initState 0).isIdle = false
  ∧ (240000 : Int) - (initState 0).lastActivityTime > IDLE_TIMEOUT
  ∧ (runTicks (activityCheckTick (initState 0) 240000) [300000, 360000]).idleTime
      = (initState 0).idleTime
        + (240000 - (initState 0).lastActivityTime - IDLE_TIMEOUT)
        + (([300000, 360000] : List Int).length : Int) * TICK_INTERVAL
  ∧ (runTicks (activityCheckTick (initState 0) 240000) [300000, 360000]).idleTime
      = 180000 := by
  refine ⟨rfl, by decide,
    idle_time_accrual_formula (initState 0) 240000 [300000, 360000] rfl (by decide),
    by decide⟩

/-! ## Claim C7 — active coding time -/

theorem handleEdit_effects (s : TrackerState) (t : Int) (file : String) :
    (handleEdit s t file).activeCodingTime
      = s.activeCodingTime
        + (if s.lastEditTime > 0 ∧ t - s.lastEditTime < EDIT_GAP_CAP
           then t - s.lastEditTime else 0)
  ∧ (handleEdit s t file).lastEditTime = t := by
  unfold handleEdit
  dsimp only
  by_cases hc : s.lastEditTime > 0 ∧ t - s.lastEditTime < EDIT_GAP_CAP
  · simp only [if_pos hc]
    exact ⟨rfl, rfl⟩
  · simp only [if_neg hc]
    exact ⟨by simp [updateFileStats, updateFolderStats], rfl⟩

theorem runEdits_code (file : String) (ts : List Int) : ∀ s : TrackerState,
    (runEdits s file ts).activeCodingTime
      = s.activeCodingTime + codeGapSum s.lastEditTime ts
  ∧ (runEdits s file ts).lastEditTime = ts.getLastD s.lastEditTime := by
  induction ts with
  | nil =>
    intro s
    exact ⟨by simp [runEdits, codeGapSum], by simp [runEdits]⟩
  | cons t rest ih =>
    intro s
    have he := handleEdit_effects s t file
    have hr := ih (handleEdit s t file)
    have hstep : runEdits s file (t :: rest)
        = runEdits (handleEdit s t file) file rest := rfl
    constructor
    · rw [hstep, hr.1, he.1, he.2]
      rw [show codeGapSum s.lastEditTime (t :: rest)
          = (if s.lastEditTime > 0 ∧ t - s.lastEditTime < EDIT_GAP_CAP
             then t - s.lastEditTime else 0) + codeGapSum t rest from rfl]
      ring
    · rw [hstep, hr.2, he.2, List.getLastD_cons]

theorem codeGapSum_pos (ts : List Int) : ∀ prev : Int, 0 < prev →
    (∀ t ∈ ts, 0 < t) → codeGapSum prev ts = specGapSum (prev :: ts) := by
  induction ts with
  | nil => intro prev _ _; rfl
  | cons t rest ih =>
    intro prev hprev hpos
    have ht : 0 < t := hpos t (by simp)
    have hrest : ∀ x ∈ rest, 0 < x := fun x hx => hpos x (by simp [hx])
    rw [show codeGapSum prev (t :: rest)
        = (if prev > 0 ∧ t - prev < EDIT_GAP_CAP then t - prev else 0)
          + codeGapSum t rest from rfl]
    rw [ih t ht hrest]
    rw [show specGapSum (prev :: t :: rest)
        = (if t - prev < EDIT_GAP_CAP then t - prev else 0)
          + specGapSum (t :: rest) from rfl]
    congr 1
    simp [hprev]

theorem codeGapSum_zero (ts : List Int) (hpos : ∀ t ∈ ts, 0 < t) :
    codeGapSum 0 ts = specGapSum ts := by
  cases ts with
  | nil => rfl
  | cons t rest =>
    have ht : 0 < t := hpos t (by simp)
    have hrest : ∀ x ∈ rest, 0 < x := fun x hx => hpos x (by simp [hx])
    rw [show codeGapSum 0 (t :: rest)
        = (if (0 : Int) > 0 ∧ t - 0 < EDIT_GAP_CAP then t - 0 else 0)
          + codeGapSum t rest from rfl]
    rw [codeGapSum_pos rest t ht hrest]
    simp

/-- C7: over any chronologically stamped sequence of edit events on one
file starting with no previous edit, `activeCodingTime` grows by exactly
the sum of the inter-edit gaps strictly below the 30 s cap (gaps at or
above the cap contribute 0), and the last-edit timestamp ends up equal
to the final event's instant regardless of which gaps were credited. -/
theorem active_coding_time_sums_subcap_gaps (s : TrackerState) (file : String)
    (ts : List Int) (h0 : s.lastEditTime = 0) (hpos : ∀ t ∈ ts, 0 < t) :
    (runEdits s file ts).activeCodingTime = s.activeCodingTime + specGapSum ts
  ∧ (runEdits s file ts).lastEditTime = ts.getLastD 0 := by
  have h := runEdits_code file ts s
  constructor
  · rw [h.1, h0, codeGapSum_zero ts hpos]
  · rw [h.2, h0]

/-- C7 witness: edits at 1000, 5000, 40000, 45000 ms credit the two
sub-cap gaps 4000 and 5000 (total 9000) and skip the 35000 ms gap. -/
theorem active_coding_time_sums_subcap_gaps_witness :
    (initState 0).lastEditTime = 0
  ∧ (∀ t ∈ ([1000, 5000, 40000, 45000] : List Int), 0 < t)
  ∧ (runEdits (initState 0) "/d/a.py" [1000, 5000, 40000, 45000]).activeCodingTime
      = (initState 0).activeCodingTime + specGapSum [1000, 5000, 40000, 45000]
  ∧ (runEdits (initState 0) "/d/a.py" [1000, 5000, 40000, 45000]).lastEditTime
      = ([1000, 5000, 40000, 45000] : List Int).getLastD 0
  ∧ specGapSum [1000, 5000, 40000, 45000] = 9000 := by
  refine ⟨rfl, by decide, ?_, ?_, by decide⟩
  · exact (active_coding_time_sums_subcap_gaps (initState 0) "/d/a.py"
      [1000, 5000, 40000, 45000] rfl (by decide)).1
  · exact (active_coding_time_sums_subcap_gaps (initState 0) "/d/a.py"
      [1000, 5000, 40000, 45000] rfl (by decide)).2

/-! ## Claim C8 — stale focus flush -/

/-- C8: a focus-cursor flush whose elapsed duration is at or above the
5-minute staleness ceiling credits nothing — the file map, folder map
and language-usage map are unchanged — yet the cursor's start time is
still reset to `now`.  (The handler is total, so no error can
surface.) -/
theorem stale_focus_flush_credits_nothing (s : TrackerState) (now st : Int)
    (f : String) (hf : s.currentFocusedFile = some f) (hfne : f ≠ "")
    (hs : s.focusStartTime = some st) (hsne : st ≠ 0)
    (hstale : now - st ≥ STALE_CEILING) :
    (updateFileTimeSpent s now).fileStats = s.fileStats
  ∧ (updateFileTimeSpent s now).folderStats = s.folderStats
  ∧ (updateFileTimeSpent s now).languageUsage = s.languageUsage
  ∧ (updateFileTimeSpent s now).focusStartTime = some now := by
  unfold updateFileTimeSpent
  rw [hf, hs]
  dsimp only
  rw [if_neg (by simp [hfne, hsne]), if_neg (not_lt.mpr hstale)]
  exact ⟨rfl, rfl, rfl, rfl⟩

/-- C8 witness: a cursor opened at t = 100 and flushed at t = 400100
(400 s elapsed, above the 300 s ceiling) credits nothing and resets the
start time. -/
theorem stale_focus_flush_credits_nothing_witness :
    (handleFocusChange (initState 0) 100 (some "/d/a.py")).currentFocusedFile
      = some "/d/a.py"
  ∧ (handleFocusChange (initState 0) 100 (some "/d/a.py")).focusStartTime = some 100
  ∧ (400100 : Int) - 100 ≥ STALE_CEILING
  ∧ (updateFileTimeSpent (handleFocusChange (initState 0) 100 (some "/d/a.py"))
      400100).fileStats
      = (handleFocusChange (initState 0) 100 (some "/d/a.py")).fileStats
  ∧ (updateFileTimeSpent (handleFocusChange (initState 0) 100 (some "/d/a.py"))
      400100).focusStartTime = some 400100 := by
  refine ⟨by decide, by decide, by decide, ?_, ?_⟩
  · exact (stale_focus_flush_credits_nothing _ 400100 100 "/d/a.py" (by decide)
      (by decide) (by decide) (by decide) (by decide)).1
  · exact (stale_focus_flush_credits_nothing _ 400100 100 "/d/a.py" (by decide)
      (by decide) (by decide) (by decide) (by decide)).2.2.2

/-! ## Claim C10 — zero-duration language entries -/

/-- C10: a focus-change event to a file whose name has a non-empty
extension seeds a zero-duration entry for that language into the
language-usage map when none exists (here from a state with no open
focus cursor, so no flush precedes the insertion); consequently a
snapshot can contain a language entry whose accumulated duration is 0. -/
theorem focus_inserts_zero_language_entry (s : TrackerState) (now : Int)
    (f : String) (hlang : langOf f ≠ "")
    (habsent : getKey s.languageUsage (langOf f) = none)
    (hnofocus : s.currentFocusedFile = none) :
    getKey (handleFocusChange s now (some f)).languageUsage (langOf f) = some 0
  ∧ (getCurrentSessionData (handleFocusChange (initState 0) 1000
      (some "/d/a.py")) 1000).2.languageUsage = [("py", 0)] := by
  constructor
  · have hflush : updateFileTimeSpent { s with lastActivityTime := now } now
        = { s with lastActivityTime := now } := by
      unfold updateFileTimeSpent
      rw [hnofocus]
    unfold handleFocusChange
    dsimp only
    rw [hflush]
    dsimp only [updateFileStats, updateFolderStats]
    rw [if_neg hlang]
    dsimp only
    rw [habsent]
    exact getKey_setKey_self _ _ _
  · decide

/-- C10 witness: focusing `/d/b.txt` from the fresh state inserts a
`txt` entry with duration 0. -/
theorem focus_inserts_zero_language_entry_witness :
    langOf "/d/b.txt" ≠ ""
  ∧ getKey (initState 0).languageUsage (langOf "/d/b.txt") = none
  ∧ (initState 0).currentFocusedFile = none
  ∧ getKey (handleFocusChange (initState 0) 7 (some "/d/b.txt")).languageUsage
      (langOf "/d/b.txt") = some 0 := by
  refine ⟨by decide, rfl, rfl, ?_⟩
  exact (focus_inserts_zero_language_entry (initState 0) 7 "/d/b.txt"
    (by decide) rfl rfl).1

end SessionTracker
